import Mathlib

/-
Verification of the librescoot/smut update agent against its specification.

The development shallowly embeds the Go source:
  pkg/download (Download, VerifyChecksum)  -> attemptLoop, download, VerifyChecksum
  pkg/redis (WaitForUpdate, GetChecksum)   -> waitForUpdate, the checksumGet field
  cmd/smut/main.go (main loop, handleUpdate) -> mainCycle, handleUpdate
Go strings are embedded as lists of characters (GoStr); byte sequences as
lists of naturals; external collaborators (HTTP responses, the filesystem,
the mender installer, the redis sink) are explicit inputs, and the writes
the orchestration loop performs against the status sink are collected in
an explicit trace.
-/

deriving instance DecidableEq for Except

namespace Smut

/-- Go strings, embedded as character lists. -/
abbrev GoStr := List Char

/-- Shorthand turning a Lean string literal into the embedded form. -/
def gs (s : String) : GoStr := s.data

/-- Embedding of Go strings.HasPrefix on character lists. -/
def hasPref : GoStr → GoStr → Bool
  | [], _ => true
  | _ :: _, [] => false
  | p :: ps, c :: cs => p = c && hasPref ps cs

/-- Embedding of Go strings.Contains: some suffix of the haystack starts
with the needle. -/
def containsSub (needle : GoStr) : GoStr → Bool
  | [] => hasPref needle []
  | c :: cs => hasPref needle (c :: cs) || containsSub needle cs

/-- Split at the first occurrence of the separator, as Go
strings.SplitN(s, sep, 2) does: none when the separator is absent
(SplitN then yields a single field), otherwise the text before the first
separator and everything after it. -/
def splitFirst (sep : Char) : GoStr → Option (GoStr × GoStr)
  | [] => none
  | c :: cs =>
    if c = sep then some ([], cs)
    else
      match splitFirst sep cs with
      | none => none
      | some (a, b) => some (c :: a, b)

/-- Embedding of Go strings.ToLower (ASCII inputs only arise here). -/
def goToLower (s : GoStr) : GoStr := s.map Char.toLower

/-- The lowercase hex alphabet of Go encoding/hex (const hextable). -/
def hexDigits : GoStr := gs "0123456789abcdef"

/-- One lowercase hex digit. -/
def hexDigit (n : Nat) : Char := hexDigits.getD n '0'

/-- Embedding of Go encoding/hex EncodeToString: each byte becomes its
high and low nibble, in the lowercase alphabet. -/
def hexEncode (bytes : List Nat) : GoStr :=
  bytes.flatMap (fun b => [hexDigit (b / 16), hexDigit (b % 16)])

/-- The errors VerifyChecksum can return, one constructor per return
path of the Go function (download.go VerifyChecksum). -/
inductive VerifyErr where
  | badFormat (spec : GoStr)
  | unsupportedAlg (alg : GoStr)
  | openFailed
  | mismatch (expected actual : GoStr)
deriving DecidableEq

/-- Go error strings of the VerifyChecksum error paths (single quotes of
the format message omitted; no claim depends on them). -/
def verifyErrMsg : VerifyErr → GoStr
  | .badFormat s => gs "invalid checksum format, expected algorithm:hash, got " ++ s
  | .unsupportedAlg a => gs "unsupported checksum algorithm: " ++ a
  | .openFailed => gs "error opening file for checksum verification: open failed"
  | .mismatch e a => gs "checksum mismatch: expected " ++ e ++ gs ", got " ++ a

/-- Embedding of Manager.VerifyChecksum (pkg/download). The SHA-256
primitive of crypto/sha256 is an external library and enters as the
function argument sha; the file at the path enters as its contents, none
when os.Open would fail. Steps in source order: SplitN on the colon with
limit 2, case-normalize the algorithm, compare against sha256, open the
file, hash it, hex encode, compare against the supplied hex field. -/
def VerifyChecksum (sha : List Nat → List Nat) (file : Option (List Nat))
    (checksumStr : GoStr) : Except VerifyErr Unit :=
  match splitFirst ':' checksumStr with
  | none => .error (.badFormat checksumStr)
  | some (algRaw, expectedHash) =>
    let algorithm := goToLower algRaw
    if algorithm ≠ gs "sha256" then .error (.unsupportedAlg algorithm)
    else
      match file with
      | none => .error .openFailed
      | some contents =>
        let actualHash := hexEncode (sha contents)
        if actualHash ≠ expectedHash then .error (.mismatch expectedHash actualHash)
        else .ok ()

example : splitFirst ':' (gs "sha256:ab") = some (gs "sha256", gs "ab") := by decide

example : splitFirst ':' (gs "sha256:aa:bb") = some (gs "sha256", gs "aa:bb") := by decide

example : splitFirst ':' (gs "nocolon") = none := by decide

example : hexEncode [171, 0] = gs "ab00" := by decide

example : VerifyChecksum (fun _ => [171]) (some [1]) (gs "sha256:ab") = .ok () := by decide

example : VerifyChecksum (fun _ => [171]) (some [1]) (gs "SHA256:ab") = .ok () := by decide

example : VerifyChecksum (fun _ => [171]) (some [1]) (gs "md5:ab")
    = .error (.unsupportedAlg (gs "md5")) := by decide

example : VerifyChecksum (fun _ => [171]) (some [1]) (gs "nocolon")
    = .error (.badFormat (gs "nocolon")) := by decide

example : VerifyChecksum (fun _ => [171]) (some [1]) (gs "sha256:00")
    = .error (.mismatch (gs "00") (gs "ab")) := by decide

/-! ## Download engine (pkg/download Download) -/

/-- An HTTP response as the download engine observes it: the status code,
the body bytes the stream delivers, and whether reading the body ends in
a non-EOF error after those bytes instead of EOF. -/
structure Response where
  status : Nat
  body : List Nat
  streamErr : Bool
deriving DecidableEq

/-- The error paths of Download, one constructor per return path that the
embedding covers (request construction and file open errors of the local
OS are not needed by any claim and are absent from the environment). -/
inductive DlErr where
  | retriesExhausted (n : Nat)
  | unexpectedStatus (code : Nat)
  | streamError
deriving DecidableEq

/-- What one call of Download did: how many connection attempts it made,
which backoff sleeps (in seconds) it performed, the bytes left at the
destination path afterwards, and the returned value. -/
structure DlOutcome where
  attemptsMade : Nat
  sleeps : List Nat
  fileContent : Option (List Nat)
  result : Except DlErr (List Nat)
deriving DecidableEq

/-- maxRetries of the Go source. -/
def maxRetries : Nat := 5

/-- The connection retry loop of Download: attempt i is the i-th call of
client.Do, whose outcome the environment supplies as att i (none is a
request-establishment failure). After a failed attempt that is not the
last, the engine sleeps 2 to the power i seconds (Go: 1 shifted left i).
Returns the number of attempts made, the sleeps performed, and the first
successful response, if any. -/
def attemptLoop (att : Nat → Option Response) : Nat → Nat → Nat × List Nat × Option Response
  | _, 0 => (0, [], none)
  | i, r + 1 =>
    match att i with
    | some resp => (1, [], some resp)
    | none =>
      if r = 0 then (1, [], none)
      else
        match attemptLoop att (i + 1) r with
        | (n, sleeps, res) => (n + 1, (2 ^ i) :: sleeps, res)

/-- The remainder of Download once the retry loop finished, split out of
download for proof convenience: status code check, the append-or-truncate
decision (append only when a partial file existed and the remote answered
206 Partial Content; otherwise os.Create truncates and the resume offset
is reset to zero), and the streaming copy of the body. -/
def mkOutcome (pre : Option (List Nat)) : Nat × List Nat × Option Response → DlOutcome
  | (n, sleeps, none) =>
    { attemptsMade := n, sleeps := sleeps, fileContent := pre,
      result := .error (.retriesExhausted maxRetries) }
  | (n, sleeps, some resp) =>
    if resp.status ≠ 200 ∧ resp.status ≠ 206 then
      { attemptsMade := n, sleeps := sleeps, fileContent := pre,
        result := .error (.unexpectedStatus resp.status) }
    else
      let fileSize := match pre with
        | some l => l.length
        | none => 0
      let base := if fileSize > 0 ∧ resp.status = 206 then pre.getD [] else []
      let final := base ++ resp.body
      if resp.streamErr then
        { attemptsMade := n, sleeps := sleeps, fileContent := some final,
          result := .error .streamError }
      else
        { attemptsMade := n, sleeps := sleeps, fileContent := some final,
          result := .ok final }

/-- Embedding of Manager.Download (pkg/download), from the os.Stat of the
destination path on: pre is the content of the partial file already at
that path (none when absent), att the outcomes of the successive
client.Do calls. -/
def download (pre : Option (List Nat)) (att : Nat → Option Response) : DlOutcome :=
  mkOutcome pre (attemptLoop att 0 maxRetries)

example :
    download (some [9, 9]) (fun _ => some { status := 200, body := [1, 2, 3], streamErr := false })
      = { attemptsMade := 1, sleeps := [], fileContent := some [1, 2, 3], result := .ok [1, 2, 3] } := by
  decide

example :
    download (some [9, 9]) (fun _ => some { status := 206, body := [1], streamErr := false })
      = { attemptsMade := 1, sleeps := [], fileContent := some [9, 9, 1], result := .ok [9, 9, 1] } := by
  decide

example :
    download none (fun _ => none)
      = { attemptsMade := 5, sleeps := [1, 2, 4, 8], fileContent := none,
          result := .error (.retriesExhausted 5) } := by
  decide

example :
    download none (fun i => if i = 2 then some { status := 404, body := [], streamErr := false } else none)
      = { attemptsMade := 3, sleeps := [1, 2], fileContent := none,
          result := .error (.unexpectedStatus 404) } := by
  decide

example :
    download none (fun _ => some { status := 200, body := [7], streamErr := true })
      = { attemptsMade := 1, sleeps := [], fileContent := some [7],
          result := .error .streamError } := by
  decide

/-! ## Command source (pkg/redis WaitForUpdate) -/

/-- Redis LPUSH: producers (README, tests/main_test.go, the shell test
script) push update URLs onto the FRONT of the list. -/
def lpush (v : GoStr) (q : List GoStr) : List GoStr := v :: q

/-- The queue obtained by performing the given pushes, oldest first, on
an empty list. -/
def queueOf (pushes : List GoStr) : List GoStr :=
  pushes.foldl (fun q u => lpush u q) []

/-- Outcome of the raw redis GET of the checksum key. -/
inductive GetRes where
  | ok (v : GoStr)
  | nil
  | err
deriving DecidableEq

/-- Error paths of WaitForUpdate. -/
inductive WaitErr where
  | emptyUrl
  | checksumGetFailed
deriving DecidableEq

/-- Result of WaitForUpdate: blocked forever (BLPOP on an empty list with
no producer), failed, or a url together with the returned checksum. -/
inductive WaitRes where
  | blocked
  | failed (e : WaitErr)
  | got (url : GoStr) (checksum : GoStr)
deriving DecidableEq

/-- The drain loop of WaitForUpdate: LPOP until the list is empty,
keeping the last non-empty value popped (an empty popped value leaves
lastUrl unchanged). -/
def drainQueue (lastUrl : GoStr) : List GoStr → GoStr
  | [] => lastUrl
  | r :: rs => drainQueue (if r = [] then lastUrl else r) rs

/-- Embedding of Client.WaitForUpdate (pkg/redis): BLPOP the first entry
(error if it is empty), drain the remaining entries with LPOP keeping
the last non-empty one, then, when a checksum key is configured, GET it.
The Go source assigns that GET into a freshly declared variable inside
the if block, shadowing the outer checksum variable, so the returned
checksum is always the empty string; the embedding returns [] likewise.
Returns the result paired with the entries still queued afterwards. -/
def waitForUpdate (queue : List GoStr) (checksumKey : GoStr) (g : GetRes) :
    WaitRes × List GoStr :=
  match queue with
  | [] => (.blocked, [])
  | u :: rest =>
    if u = [] then (.failed .emptyUrl, rest)
    else
      let lastUrl := drainQueue u rest
      if checksumKey ≠ [] then
        match g with
        | .err => (.failed .checksumGetFailed, [])
        | _ => (.got lastUrl [], [])
      else (.got lastUrl [], [])

example :
    waitForUpdate (queueOf [gs "a", gs "b"]) [] GetRes.nil = (.got (gs "a") [], []) := by
  decide

example :
    waitForUpdate (queueOf [gs "x", gs ""]) [] GetRes.nil = (.failed .emptyUrl, [gs "x"]) := by
  decide

/-! ## Orchestration loop (cmd/smut/main.go) -/

/-- The configuration fields the loop consumes per cycle. -/
structure Config where
  updateType : GoStr
  failureKey : GoStr

/-- One write against the external redis sink: the ota status field, the
ota update-type field, or the failure key. -/
inductive SinkWrite where
  | status (s : GoStr)
  | updateType (s : GoStr)
  | failure (key msg : GoStr)
deriving DecidableEq

/-- True exactly on failure-report writes. -/
def isFailureWrite : SinkWrite → Bool
  | .failure _ _ => true
  | _ => false

/-- The collaborators one cycle of handleUpdate consults: the dequeued
url, the outcome of downloadManager.Download (error message or the
downloaded path), the raw GET behind redisClient.GetChecksum, the
filesystem as read by VerifyChecksum, the sha256 primitive, and the
outcome of menderClient.Install at a path. -/
structure CycleEnv where
  url : GoStr
  download : Except GoStr GoStr
  checksumGet : Except Unit (Option GoStr)
  fileContents : GoStr → Option (List Nat)
  sha : List Nat → List Nat
  install : GoStr → Except GoStr Unit

/-- What one call of handleUpdate did: the status writes it made, the
paths it passed to os.Remove, and its return value (none on success,
otherwise the Go error string). -/
structure HandleResult where
  writes : List SinkWrite
  removed : List GoStr
  result : Option GoStr
deriving DecidableEq

/-- Go strings.TrimPrefix(url, schemeFile) for urls that carry the
scheme: drop the seven characters of file colon slash slash. -/
def trimFileScheme (url : GoStr) : GoStr := url.drop 7

/-- The install step of handleUpdate (main.go 237 onward): set
installing-updates, run the installer; on failure remove the artifact
unconditionally and set installing-update-error; on success remove it
only when it was downloaded (not a file scheme url), then set the
mode-dependent terminal success status. -/
def installStep (cfg : Config) (env : CycleEnv) (downloadPath : GoStr)
    (w : List SinkWrite) (isFile : Bool) : HandleResult :=
  let w2 := w ++ [.status (gs "installing-updates")]
  match env.install downloadPath with
  | .error e =>
    { writes := w2 ++ [.status (gs "installing-update-error")],
      removed := [downloadPath],
      result := some (gs "error installing update: " ++ e) }
  | .ok () =>
    let rem : List GoStr := if isFile then [] else [downloadPath]
    let successStatus :=
      if cfg.updateType = gs "blocking" then gs "installation-complete-waiting-dashboard-reboot"
      else gs "installation-complete-waiting-reboot"
    { writes := w2 ++ [.status successStatus], removed := rem, result := none }

/-- The checksum step of handleUpdate (main.go 217 onward), entered with
the path to verify and the writes so far: a GetChecksum error is only
logged and leaves the checksum empty, exactly like an absent key; a
non-empty checksum is verified, and on any verification error the
artifact is removed unconditionally and downloading-update-error set. -/
def handleFromPath (cfg : Config) (env : CycleEnv) (downloadPath : GoStr)
    (w : List SinkWrite) (isFile : Bool) : HandleResult :=
  let checksum : GoStr := match env.checksumGet with
    | .error _ => []
    | .ok none => []
    | .ok (some v) => v
  if checksum ≠ [] then
    match VerifyChecksum env.sha (env.fileContents downloadPath) checksum with
    | .error ve =>
      { writes := w ++ [.status (gs "downloading-update-error")],
        removed := [downloadPath],
        result := some (gs "checksum verification failed: " ++ verifyErrMsg ve) }
    | .ok () => installStep cfg env downloadPath w isFile
  else installStep cfg env downloadPath w isFile

/-- Embedding of handleUpdate (cmd/smut/main.go): a file scheme url
skips the transfer and uses the trimmed path directly; otherwise set
downloading-updates and run the download engine, turning its error into
downloading-update-error plus a wrapped error string. -/
def handleUpdate (cfg : Config) (env : CycleEnv) : HandleResult :=
  if hasPref (gs "file://") env.url then
    handleFromPath cfg env (trimFileScheme env.url) [] true
  else
    match env.download with
    | .error e =>
      { writes := [.status (gs "downloading-updates"), .status (gs "downloading-update-error")],
        removed := [],
        result := some (gs "error downloading update: " ++ e) }
    | .ok p => handleFromPath cfg env p [.status (gs "downloading-updates")] false

/-- How the dequeue that opens a cycle ended. -/
inductive WaitOutcome where
  | canceled
  | failed
  | got
deriving DecidableEq

/-- What the loop does after the cycle. -/
inductive LoopDecision where
  | exitLoop
  | continueLoop
  | waitReboot
deriving DecidableEq

/-- The observable effect of one iteration of the main for loop. -/
structure CycleResult where
  writes : List SinkWrite
  removed : List GoStr
  decision : LoopDecision
deriving DecidableEq

/-- Embedding of one iteration of the for loop in main (cmd/smut/main.go
76 onward): the select on ctx.Done, the checking-updates write before the
blocking dequeue, the three dequeue outcomes, and, for a received url,
handleUpdate followed by the error-string-to-status mapping of main (a
status is derived from whether the error text contains download or
install, defaulting to unknown) plus the failure write, or, on success,
the unconditional installation-complete-waiting-reboot and update-type
none writes followed by waiting for reboot. -/
def mainCycle (cfg : Config) (ctxDone : Bool) (wait : WaitOutcome) (env : CycleEnv) :
    CycleResult :=
  if ctxDone then
    { writes := [.status (gs "unknown"), .updateType (gs "none")],
      removed := [], decision := .exitLoop }
  else
    let w0 : List SinkWrite := [.status (gs "checking-updates")]
    match wait with
    | .canceled =>
      { writes := w0 ++ [.status (gs "unknown"), .updateType (gs "none")],
        removed := [], decision := .exitLoop }
    | .failed =>
      { writes := w0 ++ [.status (gs "checking-update-error")],
        removed := [], decision := .continueLoop }
    | .got =>
      let h := handleUpdate cfg env
      match h.result with
      | some errMsg =>
        let st :=
          if containsSub (gs "download") errMsg then gs "downloading-update-error"
          else if containsSub (gs "install") errMsg then gs "installing-update-error"
          else gs "unknown"
        { writes := w0 ++ h.writes ++ [.status st, .failure cfg.failureKey errMsg],
          removed := h.removed, decision := .continueLoop }
      | none =>
        { writes := w0 ++ h.writes
            ++ [.status (gs "installation-complete-waiting-reboot"), .updateType (gs "none")],
          removed := h.removed, decision := .waitReboot }

/-- A blocking-mode configuration with the default failure key. -/
def cfgBlocking : Config :=
  { updateType := gs "blocking", failureKey := gs "mender/update/last-failure" }

/-- A non-blocking-mode configuration with the default failure key. -/
def cfgNonBlocking : Config :=
  { updateType := gs "non-blocking", failureKey := gs "mender/update/last-failure" }

/-- Concrete cycle for the blocking-mode success scenario: a network url
whose download and installation both succeed, with no checksum set. -/
def envSuccess : CycleEnv :=
  { url := gs "http://h/a.mender",
    download := .ok (gs "/tmp/a.mender"),
    checksumGet := .ok none,
    fileContents := fun _ => some [1],
    sha := fun _ => [171],
    install := fun _ => .ok () }

/-- Concrete cycle for the local-file checksum-mismatch scenario: a file
scheme url, a supplied digest 00, and contents hashing to ab. -/
def envLocalMismatch : CycleEnv :=
  { url := gs "file:///tmp/u.bin",
    download := .error [],
    checksumGet := .ok (some (gs "sha256:00")),
    fileContents := fun _ => some [1],
    sha := fun _ => [171],
    install := fun _ => .ok () }

/-- Concrete cycle for the downloaded-artifact checksum-mismatch
scenario: a network url whose download succeeds, a supplied digest 00,
and contents hashing to ab. -/
def envDlMismatch : CycleEnv :=
  { url := gs "http://h/u.mender",
    download := .ok (gs "/tmp/u.mender"),
    checksumGet := .ok (some (gs "sha256:00")),
    fileContents := fun _ => some [1],
    sha := fun _ => [171],
    install := fun _ => .ok () }

/-! ## Helper lemmas -/

/-- True exactly when VerifyChecksum returned the format error. -/
def isBadFormatRes : Except VerifyErr Unit → Bool
  | .error (.badFormat _) => true
  | _ => false

/-- Splitting a digest spec that starts with the sha256 algorithm tag
takes the first colon, leaving the whole remainder as the hash field. -/
theorem splitFirst_sha256_append (h : GoStr) :
    splitFirst ':' (gs "sha256:" ++ h) = some (gs "sha256", h) := rfl

/-- Evaluation of VerifyChecksum on a readable file and a well-formed
sha256 spec: the outcome is decided by comparing the hex digest of the
contents with the supplied hash field. -/
theorem verify_sha256_eval (sha : List Nat → List Nat) (bs : List Nat) (h : GoStr) :
    VerifyChecksum sha (some bs) (gs "sha256:" ++ h)
      = if hexEncode (sha bs) = h then .ok ()
        else .error (.mismatch h (hexEncode (sha bs))) := by
  unfold VerifyChecksum
  rw [splitFirst_sha256_append]
  have hlow : goToLower (gs "sha256") = gs "sha256" := by decide
  simp only [hlow, ne_eq, not_true_eq_false, if_false, ite_not]

/-! ## Claims C4 and C5: the checksum verifier -/

/-- C4 (amended): VerifyChecksum returns the format error, independently
of the file (hence before any reading or hashing), exactly when the
digest spec contains no colon; on a spec with at least one colon the text
before the first colon is the algorithm and everything after it is the
hash field, and when the case-normalized algorithm is not sha256 the
distinct unsupported-algorithm error is returned, again independently of
the file; a parsed spec never yields the format error. -/
theorem verifyChecksum_format_policy (sha : List Nat → List Nat)
    (file : Option (List Nat)) (s : GoStr) :
    (splitFirst ':' s = none → VerifyChecksum sha file s = .error (.badFormat s))
    ∧ (∀ a b, splitFirst ':' s = some (a, b) → goToLower a ≠ gs "sha256" →
        VerifyChecksum sha file s = .error (.unsupportedAlg (goToLower a)))
    ∧ (∀ a b, splitFirst ':' s = some (a, b) →
        isBadFormatRes (VerifyChecksum sha file s) = false) := by
  refine ⟨fun hn => by simp [VerifyChecksum, hn], fun a b hs hne => ?_, fun a b hs => ?_⟩
  · simp [VerifyChecksum, hs, hne]
  · unfold VerifyChecksum
    rw [hs]
    dsimp only
    split
    · rfl
    · cases file with
      | none => rfl
      | some contents =>
        dsimp only
        split
        · rfl
        · rfl

/-- C4 counterexample: the digest spec sha256:aa:bb has two colons, so by
the claim it should be rejected with a format error before hashing; the
code instead splits at the first colon only, hashes the file, and reports
a checksum mismatch whose actual value is the computed digest. -/
theorem verifyChecksum_two_colons_not_format_error :
    VerifyChecksum (fun _ => [171]) (some [1]) (gs "sha256:aa:bb")
        = .error (.mismatch (gs "aa:bb") (gs "ab"))
    ∧ isBadFormatRes (VerifyChecksum (fun _ => [171]) (some [1]) (gs "sha256:aa:bb"))
        = false := by
  decide

/-- C4 witness: concrete runs of the amended policy on a spec without a
colon and on one with an unsupported algorithm. -/
theorem verifyChecksum_format_policy_witness :
    VerifyChecksum (fun _ => [0]) none (gs "nocolon") = .error (.badFormat (gs "nocolon"))
    ∧ VerifyChecksum (fun _ => [0]) none (gs "md5:ab")
        = .error (.unsupportedAlg (goToLower (gs "md5")))
    ∧ isBadFormatRes (VerifyChecksum (fun _ => [0]) none (gs "md5:ab")) = false :=
  ⟨(verifyChecksum_format_policy (fun _ => [0]) none (gs "nocolon")).1 (by decide),
   (verifyChecksum_format_policy (fun _ => [0]) none (gs "md5:ab")).2.1
     (gs "md5") (gs "ab") (by decide) (by decide),
   (verifyChecksum_format_policy (fun _ => [0]) none (gs "md5:ab")).2.2
     (gs "md5") (gs "ab") (by decide)⟩

/-- C5: for a readable file, verification against a sha256 spec succeeds
exactly when the supplied hash field equals the lowercase hex digest of
the contents, and changing any one character of that digest to a
different one produces the mismatch error carrying both the supplied
(expected) and the computed (actual) hex values. -/
theorem verifyChecksum_sha256_roundtrip (sha : List Nat → List Nat) (bs : List Nat) :
    (∀ h : GoStr,
      VerifyChecksum sha (some bs) (gs "sha256:" ++ h) = .ok () ↔ h = hexEncode (sha bs))
    ∧ (∀ (i : Nat) (c : Char) (hi : i < (hexEncode (sha bs)).length),
        c ≠ (hexEncode (sha bs)).get ⟨i, hi⟩ →
        VerifyChecksum sha (some bs) (gs "sha256:" ++ (hexEncode (sha bs)).set i c)
          = .error (.mismatch ((hexEncode (sha bs)).set i c) (hexEncode (sha bs)))) := by
  constructor
  · intro h
    rw [verify_sha256_eval]
    by_cases hd : hexEncode (sha bs) = h
    · simp [hd]
    · simp only [hd, if_false]
      constructor
      · intro he
        exact absurd he (by simp)
      · intro he
        exact absurd he.symm hd
  · intro i c hi hc
    rw [verify_sha256_eval]
    have hne : hexEncode (sha bs) ≠ (hexEncode (sha bs)).set i c := by
      intro he
      have hq := congrArg (fun t : GoStr => t[i]?) he
      have h1 : ((hexEncode (sha bs)).set i c)[i]? = some c := by
        simp [hi]
      have h2 : (hexEncode (sha bs))[i]? = some ((hexEncode (sha bs)).get ⟨i, hi⟩) := by
        rw [List.getElem?_eq_getElem hi, List.get_eq_getElem]
      simp only [h1, h2] at hq
      exact hc (Option.some.inj hq).symm
    simp [hne]

/-- C5 witness: a concrete digest round trip and a concrete one-character
flip, for the constant hash function on an empty file. -/
theorem verifyChecksum_sha256_roundtrip_witness :
    VerifyChecksum (fun _ => [0]) (some []) (gs "sha256:" ++ hexEncode [0]) = .ok ()
    ∧ VerifyChecksum (fun _ => [0]) (some []) (gs "sha256:" ++ (hexEncode [0]).set 0 '1')
        = .error (.mismatch ((hexEncode [0]).set 0 '1') (hexEncode [0])) :=
  ⟨((verifyChecksum_sha256_roundtrip (fun _ => [0]) []).1 (hexEncode [0])).mpr rfl,
   (verifyChecksum_sha256_roundtrip (fun _ => [0]) []).2 0 '1' (by decide) (by decide)⟩

/-! ## Claims C6 and C7: the download engine -/

/-- The number of attempts the retry loop performs never exceeds the
remaining budget it was started with. -/
theorem attemptLoop_attempts_le (att : Nat → Option Response) :
    ∀ r i, (attemptLoop att i r).1 ≤ r := by
  intro r
  induction r with
  | zero => intro i; simp [attemptLoop]
  | succ r ih =>
    intro i
    unfold attemptLoop
    cases hA : att i with
    | some resp => simp
    | none =>
      by_cases hr : r = 0
      · simp [hr]
      · rw [if_neg hr]
        rcases hL : attemptLoop att (i + 1) r with ⟨n, sleeps, res⟩
        have hn := ih (i + 1)
        rw [hL] at hn
        simpa using Nat.add_le_add_right hn 1

/-- If the first attempt that succeeds is attempt i + k, the retry loop
makes k + 1 attempts, sleeping 2 to the power of the index after each of
the k failed ones, and hands back that response. -/
theorem attemptLoop_first_success (att : Nat → Option Response) (resp : Response) :
    ∀ k i r, k < r → (∀ j, j < k → att (i + j) = none) → att (i + k) = some resp →
      attemptLoop att i r
        = (k + 1, (List.range k).map (fun j => 2 ^ (i + j)), some resp) := by
  intro k
  induction k with
  | zero =>
    intro i r hr hnone hok
    cases r with
    | zero => omega
    | succ r =>
      have h0 : att i = some resp := by simpa using hok
      unfold attemptLoop
      rw [h0]
      simp
  | succ k ih =>
    intro i r hr hnone hok
    cases r with
    | zero => omega
    | succ r =>
      have h0 : att i = none := by simpa using hnone 0 (by omega)
      unfold attemptLoop
      rw [h0]
      rw [if_neg (by omega : ¬ r = 0)]
      have hrec := ih (i + 1) r (by omega)
        (fun j hj => by
          have hj1 := hnone (j + 1) (by omega)
          rw [show i + (j + 1) = i + 1 + j from by omega] at hj1
          exact hj1)
        (by rw [show i + 1 + k = i + (k + 1) from by omega]; exact hok)
      rw [hrec]
      refine Prod.ext (by simp) (Prod.ext ?_ (by simp))
      show (2 : Nat) ^ i :: (List.range k).map (fun j => 2 ^ (i + 1 + j))
          = (List.range (k + 1)).map (fun j => 2 ^ (i + j))
      rw [List.range_succ_eq_map, List.map_cons, List.map_map]
      refine congrArg₂ _ (by simp) ?_
      refine List.map_congr_left (fun a _ => ?_)
      show (2 : Nat) ^ (i + 1 + a) = 2 ^ (i + (a + 1))
      congr 1
      omega

/-- If every attempt fails, the retry loop uses the whole budget of r + 1
attempts and sleeps after each one but the last. -/
theorem attemptLoop_all_fail (att : Nat → Option Response) :
    ∀ r i, (∀ j, j < r + 1 → att (i + j) = none) →
      attemptLoop att i (r + 1)
        = (r + 1, (List.range r).map (fun j => 2 ^ (i + j)), none) := by
  intro r
  induction r with
  | zero =>
    intro i h
    have h0 : att i = none := by simpa using h 0 (by omega)
    unfold attemptLoop
    rw [h0]
    simp
  | succ r ih =>
    intro i h
    have h0 : att i = none := by simpa using h 0 (by omega)
    unfold attemptLoop
    rw [h0]
    rw [if_neg (by omega : ¬ r + 1 = 0)]
    rw [ih (i + 1)
      (fun j hj => by
        have hj1 := h (j + 1) (by omega)
        rw [show i + (j + 1) = i + 1 + j from by omega] at hj1
        exact hj1)]
    refine Prod.ext (by simp) (Prod.ext ?_ (by simp))
    show (2 : Nat) ^ i :: (List.range r).map (fun j => 2 ^ (i + 1 + j))
        = (List.range (r + 1)).map (fun j => 2 ^ (i + j))
    rw [List.range_succ_eq_map, List.map_cons, List.map_map]
    refine congrArg₂ _ (by simp) ?_
    refine List.map_congr_left (fun a _ => ?_)
    show (2 : Nat) ^ (i + 1 + a) = 2 ^ (i + (a + 1))
    congr 1
    omega

/-- The attempt count Download reports is the one of its retry loop. -/
theorem mkOutcome_attemptsMade (pre : Option (List Nat)) (t : Nat × List Nat × Option Response) :
    (mkOutcome pre t).attemptsMade = t.1 := by
  rcases t with ⟨n, sleeps, res⟩
  cases res with
  | none => rfl
  | some resp =>
    unfold mkOutcome
    dsimp only
    split
    · rfl
    · split
      · rfl
      · rfl

/-- C6: when a partial file of positive size exists and the remote
answers the range request with 200 instead of 206, Download truncates
and restarts from offset zero, so both the returned content and the
bytes on disk equal the full response body alone, not the pre-existing
bytes followed by it. -/
theorem download_full_content_restart (pre : List Nat) (att : Nat → Option Response)
    (resp : Response) (_hN : 0 < pre.length) (h0 : att 0 = some resp)
    (hs : resp.status = 200) (he : resp.streamErr = false) :
    (download (some pre) att).result = .ok resp.body
    ∧ (download (some pre) att).fileContent = some resp.body := by
  have h5 : attemptLoop att 0 maxRetries = (1, [], some resp) :=
    attemptLoop_first_success att resp 0 0 maxRetries (by decide)
      (fun j hj => absurd hj (by omega)) (by simpa using h0)
  unfold download
  rw [h5]
  unfold mkOutcome
  simp [hs, he]

/-- C6 witness: a concrete resumed transfer answered with a 200. -/
theorem download_full_content_restart_witness :
    (download (some [7]) (fun _ => some { status := 200, body := [1, 2], streamErr := false })).result
        = .ok [1, 2]
    ∧ (download (some [7]) (fun _ => some { status := 200, body := [1, 2], streamErr := false })).fileContent
        = some [1, 2] :=
  download_full_content_restart [7]
    (fun _ => some { status := 200, body := [1, 2], streamErr := false })
    { status := 200, body := [1, 2], streamErr := false }
    (by decide) rfl rfl rfl

/-- C7: Download makes at most 5 connection attempts; when all 5 fail it
returns the terminal error carrying the attempt count 5 after sleeping
1, 2, 4, 8 seconds between attempts and not after the last; and a
mid-stream body error after a successful attempt k is returned at once,
with the attempt count frozen at k + 1 and no further sleeps, never
re-entering the retry loop. -/
theorem download_retry_policy (pre : Option (List Nat)) (att : Nat → Option Response) :
    (download pre att).attemptsMade ≤ 5
    ∧ ((∀ j, j < 5 → att j = none) →
        (download pre att).result = .error (.retriesExhausted 5)
        ∧ (download pre att).attemptsMade = 5
        ∧ (download pre att).sleeps = [1, 2, 4, 8])
    ∧ (∀ k resp, k < 5 → (∀ j, j < k → att j = none) → att k = some resp →
        resp.streamErr = true → (resp.status = 200 ∨ resp.status = 206) →
        (download pre att).result = .error .streamError
        ∧ (download pre att).attemptsMade = k + 1
        ∧ (download pre att).sleeps = (List.range k).map (fun j => 2 ^ j)) := by
  refine ⟨?_, ?_, ?_⟩
  · unfold download
    rw [mkOutcome_attemptsMade]
    exact attemptLoop_attempts_le att maxRetries 0
  · intro hall
    have h5 : attemptLoop att 0 maxRetries = (5, [1, 2, 4, 8], none) := by
      have := attemptLoop_all_fail att 4 0 (fun j hj => by simpa using hall j hj)
      rw [show (4 : Nat) + 1 = maxRetries from rfl] at this
      rw [this]
      refine Prod.ext rfl (Prod.ext (by decide) rfl)
    unfold download
    rw [h5]
    exact ⟨rfl, rfl, rfl⟩
  · intro k resp hk hnone hok hse hst
    have h5 : attemptLoop att 0 maxRetries
        = (k + 1, (List.range k).map (fun j => 2 ^ (0 + j)), some resp) :=
      attemptLoop_first_success att resp k 0 maxRetries hk
        (fun j hj => by simpa using hnone j hj) (by simpa using hok)
    unfold download
    rw [h5]
    simp only [mkOutcome]
    have hcond : ¬ (resp.status ≠ 200 ∧ resp.status ≠ 206) := by
      rcases hst with h | h <;> simp [h]
    rw [if_neg hcond]
    refine ⟨?_, ?_, ?_⟩ <;> simp [hse]

/-- C7 witness: the bound, the exhaustion branch on five connection
failures, and the immediate mid-stream error after one attempt. -/
theorem download_retry_policy_witness :
    (download none (fun _ => none)).attemptsMade ≤ 5
    ∧ (download none (fun _ => none)).result = .error (.retriesExhausted 5)
    ∧ (download none (fun _ => none)).sleeps = [1, 2, 4, 8]
    ∧ (download none (fun _ => some { status := 200, body := [], streamErr := true })).result
        = .error .streamError
    ∧ (download none (fun _ => some { status := 200, body := [], streamErr := true })).attemptsMade = 1 :=
  ⟨(download_retry_policy none (fun _ => none)).1,
   ((download_retry_policy none (fun _ => none)).2.1 (fun _ _ => rfl)).1,
   ((download_retry_policy none (fun _ => none)).2.1 (fun _ _ => rfl)).2.2,
   ((download_retry_policy none (fun _ => some { status := 200, body := [], streamErr := true })).2.2
      0 _ (by omega) (fun j hj => absurd hj (by omega)) rfl rfl (Or.inl rfl)).1,
   ((download_retry_policy none (fun _ => some { status := 200, body := [], streamErr := true })).2.2
      0 _ (by omega) (fun j hj => absurd hj (by omega)) rfl rfl (Or.inl rfl)).2.1⟩

/-! ## Claim C8: the dequeue policy of WaitForUpdate -/

/-- Performing pushes left to right builds the reversed list: LPUSH
prepends, so the most recent push sits at the head. -/
theorem queueOf_eq_reverse (pushes : List GoStr) : queueOf pushes = pushes.reverse := by
  have key : ∀ (l acc : List GoStr),
      List.foldl (fun q u => lpush u q) acc l = l.reverse ++ acc := by
    intro l
    induction l with
    | nil => intro acc; simp
    | cons a t ih => intro acc; simp [lpush, ih]
  simpa [queueOf] using key pushes []

/-- Draining a queue of non-empty entries keeps the last one popped. -/
theorem drainQueue_all_nonempty :
    ∀ (l : List GoStr) (a : GoStr), (∀ x ∈ l, x ≠ []) → drainQueue a l = l.getLastD a := by
  intro l
  induction l with
  | nil => intro a _; rfl
  | cons r rs ih =>
    intro a h
    have hr : r ≠ [] := h r (by simp)
    unfold drainQueue
    rw [if_neg hr, ih r (fun x hx => h x (by simp [hx]))]
    rw [List.getLastD_cons]

/-- The last element of a list that ends in u is u. -/
theorem getLastD_append_single :
    ∀ (l : List GoStr) (a u : GoStr), (l ++ [u]).getLastD a = u := by
  intro l
  induction l with
  | nil => intro a u; rfl
  | cons x xs ih => intro a u; rw [List.cons_append, List.getLastD_cons, ih]

/-- C8 (amended): when the queue holds one or more non-empty entries at
dequeue time, WaitForUpdate consumes every entry, leaves the queue
empty, and returns the LEAST recently queued entry: under the LPUSH
producer convention of the README and the tests, BLPOP pops the most
recent entry first and the drain loop keeps the last entry popped, which
is the oldest one. -/
theorem waitForUpdate_least_recent_wins (u : GoStr) (rest : List GoStr) (g : GetRes)
    (hne : ∀ x ∈ u :: rest, x ≠ []) :
    waitForUpdate (queueOf (u :: rest)) [] g = (.got u [], []) := by
  rw [queueOf_eq_reverse, List.reverse_cons]
  cases hrv : rest.reverse with
  | nil =>
    have hu : u ≠ [] := hne u (by simp)
    simp [waitForUpdate, hu, drainQueue]
  | cons b bs =>
    have hbmem : b ∈ rest := List.mem_reverse.mp (by rw [hrv]; simp)
    have hb : b ≠ [] := hne b (by simp [hbmem])
    have hdrain : drainQueue b (bs ++ [u]) = u := by
      rw [drainQueue_all_nonempty (bs ++ [u]) b ?_, getLastD_append_single]
      intro x hx
      rcases List.mem_append.mp hx with hxb | hxu
      · have hxrest : x ∈ rest :=
          List.mem_reverse.mp (by rw [hrv]; exact List.mem_cons_of_mem b hxb)
        exact hne x (List.mem_cons_of_mem u hxrest)
      · have hxu2 : x = u := by simpa using hxu
        subst hxu2
        exact hne x (by simp)
    simp [waitForUpdate, hb, hdrain]

/-- C8 counterexample: pushing a then b (so b is the most recently
queued entry) makes WaitForUpdate return a, not b; and when the most
recent entry is the empty string, WaitForUpdate consumes only it,
returning an error and leaving the other entry queued. -/
theorem waitForUpdate_not_most_recent :
    waitForUpdate (queueOf [gs "a", gs "b"]) [] GetRes.nil = (.got (gs "a") [], [])
    ∧ (gs "a" == gs "b") = false
    ∧ waitForUpdate (queueOf [gs "x", gs ""]) [] GetRes.nil
        = (.failed .emptyUrl, [gs "x"]) := by
  decide

/-- C8 witness: the amended policy on the concrete two-element queue. -/
theorem waitForUpdate_least_recent_wins_witness :
    waitForUpdate (queueOf [gs "c", gs "d"]) [] GetRes.nil = (.got (gs "c") [], []) :=
  waitForUpdate_least_recent_wins (gs "c") [gs "d"] GetRes.nil (by decide)

/-! ## Claims C1, C2, C3, C9, C10: the orchestration loop -/

/-- C1 (code bug, failing input: blocking mode, successful cycle): after
handleUpdate writes the mode-dependent terminal status, main writes
installation-complete-waiting-reboot unconditionally, so in blocking
mode the last status value written for a successful cycle is the plain
reboot-wait variant, not the dashboard variant the claim names; only the
update-type none write follows it. -/
theorem blocking_success_terminal_status_overwritten :
    mainCycle cfgBlocking false .got envSuccess =
      { writes := [.status (gs "checking-updates"),
                   .status (gs "downloading-updates"),
                   .status (gs "installing-updates"),
                   .status (gs "installation-complete-waiting-dashboard-reboot"),
                   .status (gs "installation-complete-waiting-reboot"),
                   .updateType (gs "none")],
        removed := [gs "/tmp/a.mender"],
        decision := .waitReboot } := by
  decide

/-- C2 (code bug, failing input: file scheme reference with a wrong
checksum): the checksum failure path of handleUpdate calls os.Remove on
downloadPath unconditionally, deleting the local file the reference
names, although the success path guards that very removal with the file
scheme check. -/
theorem local_file_deleted_on_checksum_mismatch :
    hasPref (gs "file://") envLocalMismatch.url = true
    ∧ (mainCycle cfgNonBlocking false .got envLocalMismatch).removed
        = [gs "/tmp/u.bin"] := by
  decide

/-- C3 (code bug, failing input: any cycle whose checksum verification
fails): handleUpdate sets downloading-update-error, but the error string
it returns, checksum verification failed colon mismatch details,
contains neither download nor install, so the error mapping of main then
overwrites the status with unknown; the failure message is written. -/
theorem checksum_failure_final_status_unknown :
    (mainCycle cfgNonBlocking false .got envDlMismatch).writes =
      [.status (gs "checking-updates"),
       .status (gs "downloading-updates"),
       .status (gs "downloading-update-error"),
       .status (gs "unknown"),
       .failure (gs "mender/update/last-failure")
         (gs "checksum verification failed: checksum mismatch: expected 00, got ab")] := by
  decide

/-- C9: when cancellation fires while the loop is blocked on the
dequeue, the iteration writes status unknown and update-type none after
the checking-updates write that preceded the wait, terminates the loop,
and performs no failure-report write. -/
theorem mainCycle_cancel_during_wait_clean (cfg : Config) (env : CycleEnv) :
    mainCycle cfg false .canceled env =
      { writes := [.status (gs "checking-updates"),
                   .status (gs "unknown"),
                   .updateType (gs "none")],
        removed := [],
        decision := .exitLoop }
    ∧ (mainCycle cfg false .canceled env).writes.filter isFailureWrite = [] :=
  ⟨rfl, rfl⟩

/-- C10: a failing checksum lookup is treated exactly like an absent
checksum: the cycle is identical to the one with no checksum key set,
and when download and install succeed it completes as a success, writing
no failure report and settling into the reboot wait. -/
theorem checksumGet_error_skips_verification (cfg : Config) (env : CycleEnv) (p : GoStr)
    (hf : hasPref (gs "file://") env.url = false)
    (hd : env.download = .ok p)
    (hi : env.install p = .ok ()) :
    mainCycle cfg false .got { env with checksumGet := .error () }
        = mainCycle cfg false .got { env with checksumGet := .ok none }
    ∧ (mainCycle cfg false .got { env with checksumGet := .error () }).writes.filter isFailureWrite
        = []
    ∧ (mainCycle cfg false .got { env with checksumGet := .error () }).decision = .waitReboot := by
  refine ⟨?_, ?_, ?_⟩ <;>
    simp [mainCycle, handleUpdate, handleFromPath, installStep, hf, hd, hi,
      isFailureWrite, List.filter]

/-- C10 environment: a network url whose download and install succeed
while the checksum lookup errors. -/
def envGetErr : CycleEnv :=
  { url := gs "http://h/w.mender",
    download := .ok (gs "/tmp/w"),
    checksumGet := .error (),
    fileContents := fun _ => none,
    sha := fun _ => [],
    install := fun _ => .ok () }

/-- C10 witness: the lookup-error cycle at a concrete environment. -/
theorem checksumGet_error_skips_verification_witness :
    mainCycle cfgNonBlocking false .got { envGetErr with checksumGet := .error () }
        = mainCycle cfgNonBlocking false .got { envGetErr with checksumGet := .ok none }
    ∧ (mainCycle cfgNonBlocking false .got
        { envGetErr with checksumGet := .error () }).writes.filter isFailureWrite = []
    ∧ (mainCycle cfgNonBlocking false .got
        { envGetErr with checksumGet := .error () }).decision = .waitReboot :=
  checksumGet_error_skips_verification cfgNonBlocking envGetErr (gs "/tmp/w")
    (by decide) rfl rfl

end Smut
